import Mathlib

/-!
Browser-side handlers of the shipment admin pages.

A shallow embedding of the four scripts under `app/static_debug/js`:

* `out_form_validation.js`  (namespace `OutFormValidation`)
* `scheme_button.js`        (namespace `SchemeButton`)
* `set_outbound_status.js`  (namespace `SetOutboundStatus`)
* `inbound_items_modal.js`  (namespace `InboundItemsModal`)

Every handler is a function from the part of the page it reads and writes to
the page after the handler has run.  Effects on the outside world (alerts,
confirmation prompts, requests, form submissions) are appended to logs kept in
the page state.
-/

/-! ## out_form_validation.js -/

namespace OutFormValidation

/-- An entry of the `files` list of the upload input; only `name` is read. -/
structure File where
  name : String
  deriving DecidableEq

/-- The upload input `#out_form` together with the log of alerts shown. -/
structure Page where
  /-- the input value, `inbInput.value` -/
  value : String
  /-- texts passed to `alert`, oldest first -/
  alerts : List String
  deriving DecidableEq

/-- The literal the file name is compared with. -/
def requiredName : String := "OUT-FORM.xlsx"

/-- The text of the alert. -/
def alertText : String := "Имя файла должно быть OUT-FORM.xlsx"

/-- The `change` listener.  `files` is `e.target.files`; `files[0]` is
`undefined` exactly when the list is empty. -/
def onChange (p : Page) (files : List File) : Page :=
  match files.head? with
  | none => p
  | some file =>
    if file.name ≠ requiredName then
      { value := "", alerts := p.alerts ++ [alertText] }
    else
      p

end OutFormValidation

/-! ## scheme_button.js -/

namespace SchemeButton

/-- The parts of the browser state the script touches. -/
structure Page where
  /-- attribute `data-bs-theme` of the document element (`none`: not set) -/
  attr : Option String
  /-- the `localStorage` entry under the key `"theme"` (`none`: `getItem` gives `null`) -/
  stored : Option String
  /-- the `textContent` of `#themeIcon` -/
  icon : String
  deriving DecidableEq

/-- The value of `localStorage.getItem("theme") || "light"`: `null` and the
empty string are the falsy results. -/
def savedTheme (stored : Option String) : String :=
  match stored with
  | none => "light"
  | some s => if s = "" then "light" else s

/-- The glyph `updateIcon` writes. -/
def iconFor (theme : String) : String :=
  if theme = "light" then "🌒" else "🌖"

/-- The function `updateIcon(theme)`. -/
def updateIcon (p : Page) (theme : String) : Page :=
  { p with icon := iconFor theme }

/-- The top-level statements of the script, run once on page load. -/
def load (p : Page) : Page :=
  let saved := savedTheme p.stored
  updateIcon { p with attr := some saved } saved

/-- The `click` listener of `#themeToggleBtn`. -/
def click (p : Page) : Page :=
  let current := p.attr
  let next := if current = some "light" then "dark" else "light"
  updateIcon { p with attr := some next, stored := some next } next

/-- The page after `n` clicks. -/
def clicks : Nat → Page → Page
  | 0, p => p
  | n + 1, p => clicks n (click p)

/-- An attribute or storage slot that holds one of the two theme names. -/
def HoldsTheme (o : Option String) : Prop := o = some "light" ∨ o = some "dark"

/-- A page on which nothing is set yet: no attribute, no stored theme, empty icon. -/
def blankPage : Page := ⟨none, none, ""⟩

end SchemeButton

/-! ## set_outbound_status.js -/

namespace SetOutboundStatus

/-- An `input` element of a form (of a type other than image). -/
structure Input where
  name : String
  value : String
  deriving DecidableEq

/-- A form element of the document. -/
structure Form where
  id : String
  /-- its `input` descendants in document order -/
  inputs : List Input
  /-- the other names under which the form exposes its controls as properties:
  the ids of its inputs and the names and ids of its buttons, selects and
  other listed elements -/
  others : List String
  deriving DecidableEq

/-- One `.change-status` selector. -/
structure Select where
  /-- the values of its `option` elements in document order -/
  options : List String
  /-- the selected value, `select.value` (the empty string when no option is selected) -/
  value : String
  /-- the entry `select.dataset.id` (`none`: `undefined`) -/
  dataId : Option String
  /-- the entry `select.dataset.previous` (`none`: `undefined`) -/
  previous : Option String
  deriving DecidableEq

/-- The selector the listener is bound to, the forms of the document in
document order, and the logs of the effects. -/
structure Page where
  select : Select
  forms : List Form
  /-- messages passed to `confirm`, oldest first -/
  prompts : List String
  /-- forms on which `submit()` was called, as they were at that moment, oldest first -/
  submitted : List Form
  /-- number of listener runs ended by an uncaught `TypeError` -/
  uncaught : Nat
  deriving DecidableEq

/-- String conversion of a `dataset` entry inside a template literal. -/
def toStr : Option String → String
  | none => "undefined"
  | some s => s

/-- The message of the confirmation dialog. -/
def confirmText (status : String) : String :=
  "Вы уверены, что хотите изменить статус на \"" ++ status ++ "\"?"

/-- The template literal that names the form: status-form-, then the id. -/
def formId (id : Option String) : String :=
  "status-form-" ++ toStr id

/-- The value of `a || b` on a `dataset` entry and a string: `undefined` and the empty
string are falsy. -/
def orElse (a : Option String) (b : String) : String :=
  match a with
  | none => b
  | some s => if s = "" then b else s

/-- The assignment `select.value = v`: the first option with that value becomes
the selected one; when there is none, no option is selected and `select.value`
reads as the empty string. -/
def setValue (sel : Select) (v : String) : Select :=
  { sel with value := if v ∈ sel.options then v else "" }

/-- The result of `document.getElementById(id)`: the first form with that id, `none` for `null`. -/
def getElementById (forms : List Form) (id : String) : Option Form :=
  forms.find? (fun f => f.id = id)

/-- Whether a control of the form is exposed under the property name `prop`; such
a control takes the place of the form's own property or method of that name. -/
def shadowed (form : Form) (prop : String) : Bool :=
  form.inputs.any (fun i => i.name = prop) || form.others.contains prop

/-- The result of `form.querySelector('input[name="status"]')`: the first such
input, `none` for `null`. -/
def querySelectorStatus (form : Form) : Option Input :=
  form.inputs.find? (fun i => i.name = "status")

/-- Replace the first element satisfying `q` by its image under `g`. -/
def updateFirst {α : Type} (q : α → Bool) (g : α → α) : List α → List α
  | [] => []
  | a :: as => if q a then g a :: as else a :: updateFirst q g as

/-- The form after `.value = status` on its first input named `status`. -/
def setStatus (status : String) (form : Form) : Form :=
  { form with
    inputs := updateFirst (fun i => i.name = "status")
      (fun i => { i with value := status }) form.inputs }

/-- The `change` listener of the selector; `accepted` is what `confirm` returns.
The listener ends with an uncaught `TypeError` when the form is `null`, when
`form.querySelector` or `form.submit` is a control of that name and not the
method, and when there is no input named status. -/
def onChange (p : Page) (accepted : Bool) : Page :=
  let status := p.select.value
  let id := p.select.dataId
  let p := { p with prompts := p.prompts ++ [confirmText status] }
  if !accepted then
    { p with select := setValue p.select (orElse p.select.previous p.select.value) }
  else
    let p := { p with select := { p.select with previous := some status } }
    match getElementById p.forms (formId id) with
    | none => { p with uncaught := p.uncaught + 1 }
    | some form =>
      if shadowed form "querySelector" then { p with uncaught := p.uncaught + 1 }
      else
        match querySelectorStatus form with
        | none => { p with uncaught := p.uncaught + 1 }
        | some _ =>
          let p := { p with
            forms := updateFirst (fun f => f.id = formId id) (setStatus status) p.forms }
          if shadowed form "submit" then { p with uncaught := p.uncaught + 1 }
          else { p with submitted := p.submitted ++ [setStatus status form] }

/-- A change event: the user picks the option `ev.1` in the selector, the
listener runs and the user answers the dialog with `ev.2`. -/
def userChange (p : Page) (ev : String × Bool) : Page :=
  onChange { p with select := { p.select with value := ev.1 } } ev.2

/-- A sequence of change events on the selector. -/
def run (p : Page) (evs : List (String × Bool)) : Page :=
  evs.foldl userChange p

/-- The status of the most recent confirmed change of a sequence, if any. -/
def lastConfirmed (evs : List (String × Bool)) : Option String :=
  ((evs.filter (fun ev => ev.2)).getLast?).map (fun ev => ev.1)

/-- The selector of record 7 with the options new and shipped and an option
with the empty value; shipped has just been picked. -/
def sampleSelect (previous : Option String) : Select :=
  { options := ["", "new", "shipped"], value := "shipped", dataId := some "7",
    previous := previous }

/-- A page with the sample selector and the form status-form-7, whose inputs
are a token, the status field and further inputs `extra`. -/
def samplePage (previous : Option String) (extra : List Input) : Page :=
  { select := sampleSelect previous
    forms := [⟨"status-form-7", [⟨"csrf", "x"⟩, ⟨"status", ""⟩] ++ extra, []⟩]
    prompts := []
    submitted := []
    uncaught := 0 }

end SetOutboundStatus

/-! ## inbound_items_modal.js -/

namespace InboundItemsModal

/-! ### HTML fragment parsing

`innerHTML` and `insertAdjacentHTML` hand a string to the HTML fragment parser
with the table body as context element: newlines are normalised, the tokenizer
cuts the string into tags and characters, and the tree builder makes rows and
cells of them.  The model covers `tr` and `td` tags (a `td` start tag may
carry attributes of the form `name="value"`), white space between them and
character data inside cells, with the rules of the parser for `<` and `&` that
do not start markup, for NUL, for misplaced `tr` and `td` tags and for the end
of the input.  Where the parser needs more than that (character references,
comments, other elements, text outside a cell) the model gives `none`.
-/

/-- Tokens produced by the tokenizer. -/
inductive Token where
  | startTag (name : List Char) (attrs : List (String × String))
  | endTag (name : List Char)
  | char (c : Char)
  deriving DecidableEq

/-- States of the tokenizer. -/
inductive LexState where
  | data
  | charRef
  | tagOpen
  | endTagOpen
  | tagName (isEnd : Bool) (name : List Char)
  | beforeAttrName (name : List Char) (attrs : List (String × String))
  | attrName (name : List Char) (attrs : List (String × String)) (an : List Char)
  | beforeAttrValue (name : List Char) (attrs : List (String × String)) (an : List Char)
  | attrValue (name : List Char) (attrs : List (String × String)) (an v : List Char)
  | afterAttrValue (name : List Char) (attrs : List (String × String))
  deriving DecidableEq

/-- Newline normalisation of the input stream: a CR becomes LF, and an LF right
after a CR is dropped; `afterCR` tells whether the character before was a CR. -/
def normalizeNewlines (afterCR : Bool) : List Char → List Char
  | [] => []
  | c :: cs =>
    if c = '\r' then '\n' :: normalizeNewlines true cs
    else if c = '\n' && afterCR then normalizeNewlines false cs
    else c :: normalizeNewlines false cs

/-- White space of HTML (CR does not occur after normalisation). -/
def isSpace (c : Char) : Bool :=
  c = ' ' || c = '\t' || c = '\n' || c = '\x0c'

/-- The data state on `c`; `pre` holds the characters that the state before has
given back as text. -/
def dataStep (pre : List Token) (c : Char) : LexState × List Token :=
  if c = '<' then (.tagOpen, pre)
  else if c = '&' then (.charRef, pre)
  else (.data, pre ++ [.char c])

/-- One step of the tokenizer: the next state and the tokens emitted. -/
def lexStep : LexState → Char → Option (LexState × List Token)
  | .data, c => some (dataStep [] c)
  | .charRef, c =>
    if c.isAlphanum || c = '#' then none else some (dataStep [.char '&'] c)
  | .tagOpen, c =>
    if c = '/' then some (.endTagOpen, [])
    else if c.isAlpha then some (.tagName false [c.toLower], [])
    else if c = '!' || c = '?' then none
    else some (dataStep [.char '<'] c)
  | .endTagOpen, c =>
    if c.isAlpha then some (.tagName true [c.toLower], [])
    else if c = '>' then some (.data, [])
    else none
  | .tagName isEnd name, c =>
    if c = '>' then some (.data, [if isEnd then .endTag name else .startTag name []])
    else if isSpace c then (if isEnd then none else some (.beforeAttrName name [], []))
    else if c = '/' || c = '\x00' then none
    else some (.tagName isEnd (name ++ [c.toLower]), [])
  | .beforeAttrName name attrs, c =>
    if c = '>' then some (.data, [.startTag name attrs])
    else if isSpace c then some (.beforeAttrName name attrs, [])
    else if c.isAlpha then some (.attrName name attrs [c.toLower], [])
    else none
  | .attrName name attrs an, c =>
    if c = '=' then some (.beforeAttrValue name attrs an, [])
    else if c.isAlphanum || c = '-' then some (.attrName name attrs (an ++ [c.toLower]), [])
    else none
  | .beforeAttrValue name attrs an, c =>
    if c = '"' then some (.attrValue name attrs an [], []) else none
  | .attrValue name attrs an v, c =>
    if c = '"' then
      if attrs.any (fun a => a.1 = String.mk an) then some (.afterAttrValue name attrs, [])
      else some (.afterAttrValue name (attrs ++ [(String.mk an, String.mk v)]), [])
    else if c = '&' || c = '\x00' then none
    else some (.attrValue name attrs an (v ++ [c]), [])
  | .afterAttrValue name attrs, c =>
    if c = '>' then some (.data, [.startTag name attrs])
    else if isSpace c then some (.beforeAttrName name attrs, [])
    else none

/-- The tokens the tokenizer still emits when the input ends in state `st`: an
unfinished tag is dropped, an open `<`, `</` or `&` is text. -/
def lexEnd : LexState → List Token
  | .charRef => [.char '&']
  | .tagOpen => [.char '<']
  | .endTagOpen => [.char '<', .char '/']
  | _ => []

/-- The tokenizer: `acc` holds the tokens emitted so far. -/
def lex : LexState → List Token → List Char → Option (List Token)
  | st, acc, [] => some (acc ++ lexEnd st)
  | st, acc, c :: cs =>
    match lexStep st c with
    | none => none
    | some (st', ts) => lex st' (acc ++ ts) cs

/-- A table cell: the attributes of its `td` tag and its text content. -/
structure Cell where
  attrs : List (String × String)
  text : String
  deriving DecidableEq

/-- A table row: its cells in order. -/
structure TRow where
  cells : List Cell
  deriving DecidableEq

/-- Insertion modes of the tree builder, with the open row and cell. -/
inductive Mode where
  | inTableBody
  | inRow (cells : List Cell)
  | inCell (cells : List Cell) (attrs : List (String × String)) (text : List Char)
  deriving DecidableEq

/-- The cells of the open row once the open cell is closed. -/
def closeCell (cells : List Cell) (attrs : List (String × String)) (text : List Char) :
    List Cell :=
  cells ++ [⟨attrs, String.mk text⟩]

/-- One step of the tree builder: the next mode and the row completed, if any.
A `td` tag in the table body opens a row first; a `tr` or `td` start tag closes
what is open; a stray `td` or `tr` end tag and NUL are ignored. -/
def buildStep : Mode → Token → Option (Mode × Option TRow)
  | .inTableBody, .char c =>
    if isSpace c || c = '\x00' then some (.inTableBody, none) else none
  | .inTableBody, .startTag name attrs =>
    if name = ['t', 'r'] then (if attrs = [] then some (.inRow [], none) else none)
    else if name = ['t', 'd'] then some (.inCell [] attrs [], none)
    else none
  | .inTableBody, .endTag name =>
    if name = ['t', 'r'] ∨ name = ['t', 'd'] then some (.inTableBody, none) else none
  | .inRow cells, .char c =>
    if isSpace c || c = '\x00' then some (.inRow cells, none) else none
  | .inRow cells, .startTag name attrs =>
    if name = ['t', 'd'] then some (.inCell cells attrs [], none)
    else if name = ['t', 'r'] then
      (if attrs = [] then some (.inRow [], some ⟨cells⟩) else none)
    else none
  | .inRow cells, .endTag name =>
    if name = ['t', 'r'] then some (.inTableBody, some ⟨cells⟩)
    else if name = ['t', 'd'] then some (.inRow cells, none)
    else none
  | .inCell cells attrs text, .char c =>
    if c = '\x00' then some (.inCell cells attrs text, none)
    else some (.inCell cells attrs (text ++ [c]), none)
  | .inCell cells attrs text, .startTag name attrs' =>
    if name = ['t', 'd'] then some (.inCell (closeCell cells attrs text) attrs' [], none)
    else if name = ['t', 'r'] then
      (if attrs' = [] then some (.inRow [], some ⟨closeCell cells attrs text⟩) else none)
    else none
  | .inCell cells attrs text, .endTag name =>
    if name = ['t', 'd'] then some (.inRow (closeCell cells attrs text), none)
    else if name = ['t', 'r'] then some (.inTableBody, some ⟨closeCell cells attrs text⟩)
    else none

/-- The rows still open when the input ends; they stay in the table body. -/
def buildEnd : Mode → List TRow
  | .inTableBody => []
  | .inRow cells => [⟨cells⟩]
  | .inCell cells attrs text => [⟨closeCell cells attrs text⟩]

/-- The tree builder: `acc` holds the rows completed so far. -/
def build : Mode → List TRow → List Token → Option (List TRow)
  | m, acc, [] => some (acc ++ buildEnd m)
  | m, acc, t :: ts =>
    match buildStep m t with
    | none => none
    | some (m', none) => build m' acc ts
    | some (m', some r) => build m' (acc ++ [r]) ts

/-- The rows a markup string parses to inside a table body. -/
def parseFragment (markup : String) : Option (List TRow) :=
  (lex .data [] (normalizeNewlines false markup.toList)).bind (build .inTableBody [])

/-! ### The click listener -/

/-- An element of the decoded response array.  Each field holds the string the
template literal puts into the markup for it: the value itself for the string
fields `item_code` and `description`, the decimal rendering of the number for
`qty` and `weight`. -/
structure ItemRow where
  item_code : String
  qty : String
  weight : String
  description : String
  deriving DecidableEq

/-- A `.show-items` trigger; `url` is `btn.dataset.url` (`none`: `undefined`). -/
structure Trigger where
  url : Option String
  deriving DecidableEq

/-- The modal's table body, the log of requests and the modal itself. -/
structure Page where
  /-- rows of `#items-table-body` -/
  tbody : List TRow
  /-- URLs passed to `fetch`, oldest first -/
  requests : List String
  /-- whether `show()` has been called on the modal -/
  modalShown : Bool
  deriving DecidableEq

/-- What becomes of a request. -/
inductive Response where
  /-- the request fails: the promise of `fetch` rejects -/
  | failed
  /-- the body is not JSON: the promise of `r.json()` rejects -/
  | undecodable
  /-- the body decodes to an array of item records -/
  | items (rows : List ItemRow)
  /-- the body decodes to a value without `forEach` -/
  | other
  deriving DecidableEq

/-- The markup of the loading placeholder. -/
def placeholderMarkup : String := "<tr><td colspan=\"4\">Загрузка…</td></tr>"

/-- The row the placeholder markup stands for. -/
def placeholderRow : TRow := ⟨[⟨[("colspan", "4")], "Загрузка…"⟩]⟩

/-- The template literal of the `forEach` callback. -/
def rowMarkup (row : ItemRow) : String :=
  "\n                        <tr>\n                            <td>" ++ row.item_code ++
  "</td>\n                            <td>" ++ row.qty ++
  "</td>\n                            <td>" ++ row.weight ++
  "</td>\n                            <td>" ++ row.description ++
  "</td>\n                        </tr>\n                    "

/-- The argument of `fetch` as a string. -/
def fetchUrl (btn : Trigger) : String :=
  match btn.url with
  | none => "undefined"
  | some u => u

/-- The synchronous part of the `click` listener. -/
def click (p : Page) (btn : Trigger) : Option Page :=
  (parseFragment placeholderMarkup).map fun body =>
    { tbody := body, requests := p.requests ++ [fetchUrl btn], modalShown := true }

/-- The loop `data.forEach(row => tbody.insertAdjacentHTML('beforeend', ...))`:
each fragment is parsed on its own and its rows are appended to the body. -/
def appendRows : List TRow → List ItemRow → Option (List TRow)
  | body, [] => some body
  | body, row :: rows =>
    match parseFragment (rowMarkup row) with
    | none => none
    | some new => appendRows (body ++ new) rows

/-- The promise chain, run when the request is settled. -/
def respond (p : Page) : Response → Option Page
  | .failed => some p
  | .undecodable => some p
  | .other => (parseFragment "").map fun body => { p with tbody := body }
  | .items rows =>
    ((parseFragment "").bind fun body => appendRows body rows).map fun body =>
      { p with tbody := body }

/-- The row with the four field values of an item record as cell texts. -/
def rowOf (row : ItemRow) : TRow :=
  ⟨[⟨[], row.item_code⟩, ⟨[], row.qty⟩, ⟨[], row.weight⟩, ⟨[], row.description⟩]⟩

/-- Characters that are text wherever they stand in character data. -/
def isTextChar (c : Char) : Bool :=
  !(c = '<' || c = '&' || c = '\x00' || c = '\r')

/-- A string of characters that are text wherever they stand. -/
def PlainText (s : String) : Prop := ∀ c ∈ s.toList, isTextChar c = true

/-- An item record whose four field values are plain text. -/
def PlainRow (row : ItemRow) : Prop :=
  PlainText row.item_code ∧ PlainText row.qty ∧ PlainText row.weight ∧
    PlainText row.description

/-- The tokens of the template literal up to the first interpolation. -/
def openTokens : List Token :=
  "\n                        ".toList.map .char ++ [.startTag ['t', 'r'] []]
    ++ "\n                            ".toList.map .char ++ [.startTag ['t', 'd'] []]

/-- The tokens of the template literal between two interpolations. -/
def breakTokens : List Token :=
  [.endTag ['t', 'd']] ++ "\n                            ".toList.map .char
    ++ [.startTag ['t', 'd'] []]

/-- The tokens of the template literal after the last interpolation. -/
def closeTokens : List Token :=
  [.endTag ['t', 'd']] ++ "\n                        ".toList.map .char
    ++ [.endTag ['t', 'r']] ++ "\n                    ".toList.map .char

end InboundItemsModal

/-! ### Theorems: out_form_validation.js -/

namespace OutFormValidation

/-- C1: on a change event an alert is shown and the input value cleared exactly
when a file is chosen whose name differs from `OUT-FORM.xlsx`; otherwise the
page (value and alerts) is unchanged.  The comparison is exact: the lower-case
name and the `.xls` name are rejected. -/
theorem onChange_alert_iff (p : Page) (files : List File) :
    (((onChange p files).alerts = p.alerts ++ [alertText] ∧ (onChange p files).value = "")
        ↔ ∃ f, files.head? = some f ∧ f.name ≠ "OUT-FORM.xlsx")
      ∧ ((files.head? = none ∨ ∃ f, files.head? = some f ∧ f.name = "OUT-FORM.xlsx")
        ↔ onChange p files = p ∧ (onChange p files).alerts = p.alerts)
      ∧ (onChange p [⟨"out-form.xlsx"⟩]).alerts = p.alerts ++ [alertText]
      ∧ (onChange p [⟨"OUT-FORM.xls"⟩]).value = "" := by
  refine ⟨?_, ?_, ?_, ?_⟩
  · cases h : files.head? with
    | none => simp [onChange, h]
    | some f =>
      by_cases hn : f.name = "OUT-FORM.xlsx"
      · simp [onChange, h, hn, requiredName]
      · simp [onChange, h, hn, requiredName]
  · cases h : files.head? with
    | none => simp [onChange, h]
    | some f =>
      by_cases hn : f.name = "OUT-FORM.xlsx"
      · simp [onChange, h, hn, requiredName]
      · simp [onChange, h, hn, requiredName]
  · simp [onChange, requiredName]
  · simp [onChange, requiredName]

end OutFormValidation

/-! ### Theorems: scheme_button.js -/

namespace SchemeButton

theorem click_holdsTheme (p : Page) :
    HoldsTheme (click p).attr ∧ HoldsTheme (click p).stored := by
  by_cases h : p.attr = some "light" <;> simp [click, updateIcon, HoldsTheme, h]

theorem clicks_holdsTheme (n : Nat) (p : Page)
    (h : HoldsTheme p.attr ∧ HoldsTheme p.stored) :
    HoldsTheme (clicks n p).attr ∧ HoldsTheme (clicks n p).stored := by
  induction n generalizing p with
  | zero => exact h
  | succ n ih => exact ih (click p) (click_holdsTheme p)

theorem load_holdsTheme (p : Page) (h : HoldsTheme p.stored) :
    HoldsTheme (load p).attr ∧ HoldsTheme (load p).stored := by
  rcases h with h | h <;> simp [load, savedTheme, updateIcon, HoldsTheme, h]

/-- C2 (amended): with no stored theme, load applies light with the icon 🌒 and
leaves the storage empty; one click gives dark, stored dark, icon 🌖; a
second click gives light and 🌒 again, with light now stored. -/
theorem toggle_twice (p : Page) (h : p.stored = none) :
    load p = ⟨some "light", none, "🌒"⟩
      ∧ click (load p) = ⟨some "dark", some "dark", "🌖"⟩
      ∧ click (click (load p)) = ⟨some "light", some "light", "🌒"⟩ := by
  simp [load, click, savedTheme, updateIcon, iconFor, h]

theorem toggle_twice_witness :
    blankPage.stored = none
      ∧ load blankPage = ⟨some "light", none, "🌒"⟩
      ∧ click (load blankPage) = ⟨some "dark", some "dark", "🌖"⟩
      ∧ click (click (load blankPage)) = ⟨some "light", some "light", "🌒"⟩ :=
  ⟨rfl, toggle_twice blankPage rfl⟩

/-- C2 (as stated) fails: starting with no stored theme, the stored value after
the second click is light, while on load nothing is stored, so the state does
not return to the original. -/
theorem second_click_stores_light :
    (load ⟨none, none, ""⟩).stored = none
      ∧ (click (click (load ⟨none, none, ""⟩))).stored = some "light"
      ∧ click (click (load ⟨none, none, ""⟩)) ≠ load ⟨none, none, ""⟩ := by
  decide

/-- C3 (amended): after at least one click, or already on load when the stored
content is light or dark, the theme applied and the theme stored are each light
or dark; load itself applies the stored content (light when it is absent or
empty) and does not write the storage. -/
theorem theme_invariant (p : Page) (n : Nat) (h : 0 < n ∨ HoldsTheme p.stored) :
    (HoldsTheme (clicks n (load p)).attr ∧ HoldsTheme (clicks n (load p)).stored)
      ∧ (load p).attr = some (savedTheme p.stored) ∧ (load p).stored = p.stored := by
  refine ⟨?_, rfl, rfl⟩
  rcases h with h | h
  · obtain ⟨m, rfl⟩ := Nat.exists_eq_succ_of_ne_zero (Nat.pos_iff_ne_zero.mp h)
    exact clicks_holdsTheme m (click (load p)) (click_holdsTheme (load p))
  · exact clicks_holdsTheme n (load p) (load_holdsTheme p h)

theorem theme_invariant_witness :
    (0 < 3 ∨ HoldsTheme (Page.mk none (some "blue") "").stored)
      ∧ (HoldsTheme (clicks 3 (load ⟨none, some "blue", ""⟩)).attr
        ∧ HoldsTheme (clicks 3 (load ⟨none, some "blue", ""⟩)).stored)
      ∧ (load ⟨none, some "blue", ""⟩).attr = some (savedTheme (some "blue"))
      ∧ (load ⟨none, some "blue", ""⟩).stored = some "blue" :=
  ⟨Or.inl (by decide), theme_invariant ⟨none, some "blue", ""⟩ 3 (Or.inl (by decide))⟩

/-- C3 (as stated) fails: with blue stored, the state right after load (no
click) has blue applied and blue stored, neither of which is light or dark. -/
theorem load_applies_unknown_theme :
    ¬ HoldsTheme (clicks 0 (load ⟨none, some "blue", ""⟩)).attr
      ∧ ¬ HoldsTheme (clicks 0 (load ⟨none, some "blue", ""⟩)).stored := by
  simp [clicks, load, savedTheme, updateIcon, HoldsTheme]

/-- C10: after a click, whatever the state before it, the attribute and the
stored value hold the same theme, which is dark if the attribute was exactly
light before and light otherwise, and the icon is 🌒 for light and 🌖 for dark. -/
theorem click_sync (p : Page) :
    (click p).attr = (click p).stored
      ∧ (click p).stored = some (if p.attr = some "light" then "dark" else "light")
      ∧ (((click p).attr = some "light" ∧ (click p).icon = "🌒")
        ∨ ((click p).attr = some "dark" ∧ (click p).icon = "🌖")) := by
  by_cases h : p.attr = some "light" <;> simp [click, updateIcon, iconFor, h]

end SchemeButton

/-! ### Theorems: set_outbound_status.js -/

namespace SetOutboundStatus

theorem find_updateFirst {α : Type} (q : α → Bool) (g : α → α) (hg : ∀ a, q (g a) = q a)
    (l : List α) : (updateFirst q g l).find? q = (l.find? q).map g := by
  induction l with
  | nil => rfl
  | cons a as ih =>
    by_cases h : q a = true
    · simp [updateFirst, h, hg]
    · simp [updateFirst, h, ih]

theorem filter_updateFirst {α : Type} (q : α → Bool) (g : α → α) (hg : ∀ a, q (g a) = q a)
    (l : List α) :
    (updateFirst q g l).filter (fun a => !q a) = l.filter (fun a => !q a) := by
  induction l with
  | nil => rfl
  | cons a as ih =>
    by_cases h : q a = true
    · simp [updateFirst, h, hg]
    · simp [updateFirst, h, ih]

theorem find_id {forms : List Form} {id : String} {form : Form}
    (h : getElementById forms id = some form) : form.id = id := by
  have := List.find?_some h
  simpa using this

theorem find_status {form : Form} {inp : Input}
    (h : querySelectorStatus form = some inp) : inp.name = "status" := by
  have := List.find?_some h
  simpa using this

theorem userChange_previous (p : Page) (ev : String × Bool) :
    (userChange p ev).select.previous = if ev.2 then some ev.1 else p.select.previous := by
  obtain ⟨s, b⟩ := ev
  cases b
  · simp [userChange, onChange, setValue]
  · simp only [userChange, onChange, Bool.not_true, Bool.false_eq_true, if_false]
    split
    · rfl
    · split
      · rfl
      · split
        · rfl
        · split <;> rfl

theorem run_append (p : Page) (evs more : List (String × Bool)) :
    run p (evs ++ more) = run (run p evs) more := by
  simp [run, List.foldl_append]

/-- When the confirmation is accepted on a selector with record id `id` and
picked status `s`, and the form `status-form-<id>` exists, has an input named
status and no control named querySelector or submit, then the first input
named status of that form holds `s` afterwards, the submission log grows by
exactly that form, no other form is touched and the recorded previous value is
`s`. -/
theorem onChange_accepted (p : Page) (id s : String) (form : Form) (inp : Input)
    (hid : p.select.dataId = some id) (hs : p.select.value = s)
    (hform : getElementById p.forms ("status-form-" ++ id) = some form)
    (hinp : querySelectorStatus form = some inp)
    (hqs : shadowed form "querySelector" = false) (hsub : shadowed form "submit" = false) :
    (getElementById (onChange p true).forms ("status-form-" ++ id)).bind querySelectorStatus
        = some ⟨"status", s⟩
      ∧ getElementById (onChange p true).forms ("status-form-" ++ id) = some (setStatus s form)
      ∧ (onChange p true).submitted = p.submitted ++ [setStatus s form]
      ∧ (setStatus s form).id = "status-form-" ++ id
      ∧ (onChange p true).forms.filter (fun f => !(f.id = "status-form-" ++ id))
        = p.forms.filter (fun f => !(f.id = "status-form-" ++ id))
      ∧ (onChange p true).select.previous = some s := by
  have hq : querySelectorStatus (setStatus s form) = some ⟨"status", s⟩ := by
    have h := find_updateFirst (fun i : Input => decide (i.name = "status"))
      (fun i => { i with value := s }) (fun _ => rfl) form.inputs
    have hn := find_status hinp
    simp only [querySelectorStatus] at hinp
    simp only [querySelectorStatus, setStatus, h, hinp, Option.map_some']
    rw [← hn]
  have hg : getElementById
      (updateFirst (fun f : Form => decide (f.id = "status-form-" ++ id)) (setStatus s) p.forms)
      ("status-form-" ++ id) = some (setStatus s form) := by
    have h := find_updateFirst (fun f : Form => decide (f.id = "status-form-" ++ id))
      (setStatus s) (fun _ => rfl) p.forms
    simp only [getElementById] at hform
    simp only [getElementById, h, hform, Option.map_some']
  have hf := filter_updateFirst (fun f : Form => decide (f.id = "status-form-" ++ id))
    (setStatus s) (fun _ => rfl) p.forms
  have hrun : onChange p true =
      { p with
        select := { p.select with previous := some s }
        prompts := p.prompts ++ [confirmText s]
        forms := updateFirst (fun f : Form => decide (f.id = "status-form-" ++ id))
          (setStatus s) p.forms
        submitted := p.submitted ++ [setStatus s form] } := by
    simp [onChange, formId, toStr, hid, hs, hform, hinp, hqs, hsub]
  rw [hrun]
  refine ⟨?_, hg, rfl, ?_, hf, rfl⟩
  · simp only [hg]
    exact hq
  · simpa [setStatus] using find_id hform

/-- C4, the code at the failing input: the form status-form-7 has an input
named submit besides its status input.  After an accepted change to shipped
the status input holds shipped and shipped is recorded as previous, but
`form.submit` is that input, the call throws and no form is submitted.  The
same form without the input named submit is submitted once. -/
theorem submit_shadowed_by_control :
    (onChange (samplePage (some "new") [⟨"submit", "Save"⟩]) true).submitted = []
      ∧ (onChange (samplePage (some "new") [⟨"submit", "Save"⟩]) true).uncaught = 1
      ∧ (onChange (samplePage (some "new") [⟨"submit", "Save"⟩]) true).forms
        = [⟨"status-form-7", [⟨"csrf", "x"⟩, ⟨"status", "shipped"⟩, ⟨"submit", "Save"⟩], []⟩]
      ∧ (onChange (samplePage (some "new") [⟨"submit", "Save"⟩]) true).select.previous
        = some "shipped"
      ∧ (onChange (samplePage (some "new") []) true).submitted
        = [⟨"status-form-7", [⟨"csrf", "x"⟩, ⟨"status", "shipped"⟩], []⟩] := by
  decide

/-- When the confirmation is declined, the selector is assigned the recorded
previous value, or the value just picked if none is recorded or the recorded
one is the empty string; the forms, the submission log and the recorded
previous value are as before. -/
theorem onChange_declined (p : Page) :
    (onChange p false).select
        = setValue p.select (orElse p.select.previous p.select.value)
      ∧ (onChange p false).forms = p.forms
      ∧ (onChange p false).submitted = p.submitted
      ∧ (onChange p false).select.previous = p.select.previous
      ∧ (onChange p false).uncaught = p.uncaught := by
  simp [onChange, setValue]

/-- C5, the code at the failing input: the selector has an option with the
empty value, which is the recorded previous value, and shipped has just been
picked.  After a declined confirmation the selector still shows shipped; it
has not gone back to the recorded previous value.  With new recorded as
previous the same decline does go back to new. -/
theorem empty_previous_keeps_pick :
    (samplePage (some "") []).select.previous = some ""
      ∧ "" ∈ (samplePage (some "") []).select.options
      ∧ (onChange (samplePage (some "") []) false).select.value = "shipped"
      ∧ (onChange (samplePage (some "") []) false).submitted = []
      ∧ (onChange (samplePage (some "new") []) false).select.value = "new" := by
  decide

/-- C6: after any sequence of change events on a selector, the recorded
previous value is the status of the most recent confirmed change, or the
initial recorded value if none was confirmed; a declined change leaves it as
it was. -/
theorem previous_is_last_confirmed (p : Page) (evs : List (String × Bool)) :
    (run p evs).select.previous
        = (match lastConfirmed evs with
          | some s => some s
          | none => p.select.previous)
      ∧ ∀ q : Page, ∀ s : String,
          (userChange q (s, false)).select.previous = q.select.previous := by
  constructor
  · induction evs using List.reverseRecOn with
    | nil => simp [run, lastConfirmed]
    | append_singleton evs ev ih =>
      obtain ⟨s, b⟩ := ev
      rw [run_append]
      simp only [run, List.foldl_cons, List.foldl_nil] at ih ⊢
      rw [userChange_previous, ih]
      cases b <;> simp [lastConfirmed, List.filter_append]
  · intro q s
    simp [userChange_previous]

end SetOutboundStatus

/-! ### Theorems: inbound_items_modal.js -/

namespace InboundItemsModal

theorem normalize_of_no_cr (l : List Char) (h : ∀ c ∈ l, c ≠ '\r') :
    normalizeNewlines false l = l := by
  induction l with
  | nil => rfl
  | cons c cs ih =>
    have hc : c ≠ '\r' := h c (List.mem_cons_self c cs)
    simp [normalizeNewlines, hc, ih (fun d hd => h d (List.mem_cons_of_mem c hd))]

theorem lex_acc (cs : List Char) (st : LexState) (acc : List Token) :
    lex st acc cs = (lex st [] cs).map (acc ++ ·) := by
  induction cs generalizing st acc with
  | nil => simp [lex]
  | cons c cs ih =>
    simp only [lex]
    cases h : lexStep st c with
    | none => simp
    | some r =>
      obtain ⟨st', ts⟩ := r
      simp only [List.nil_append]
      rw [ih st' (acc ++ ts), ih st' ts]
      simp [Option.map_map, Function.comp_def]

theorem lex_text (text rest : List Char) (h : ∀ c ∈ text, isTextChar c = true) :
    lex .data [] (text ++ rest) = (lex .data [] rest).map (text.map .char ++ ·) := by
  induction text with
  | nil => simp
  | cons c cs ih =>
    have hc : isTextChar c = true := h c (List.mem_cons_self c cs)
    have hlt : c ≠ '<' := by
      intro e
      simp [isTextChar, e] at hc
    have hamp : c ≠ '&' := by
      intro e
      simp [isTextChar, e] at hc
    have ih' := ih (fun d hd => h d (List.mem_cons_of_mem c hd))
    have step : lex .data [] (c :: (cs ++ rest)) = lex .data [Token.char c] (cs ++ rest) := by
      simp only [lex, lexStep, dataStep, hlt, hamp, if_false, List.nil_append]
    rw [List.cons_append, step, lex_acc, ih']
    simp [Option.map_map, Function.comp_def]

theorem build_text (text : List Char) (h : ∀ c ∈ text, isTextChar c = true)
    (cells : List Cell) (attrs : List (String × String))
    (txt : List Char) (acc : List TRow) (rest : List Token) :
    build (.inCell cells attrs txt) acc (text.map .char ++ rest)
      = build (.inCell cells attrs (txt ++ text)) acc rest := by
  induction text generalizing txt with
  | nil => simp
  | cons c cs ih =>
    have hc : isTextChar c = true := h c (List.mem_cons_self c cs)
    have hnul : c ≠ '\x00' := by
      intro e
      simp [isTextChar, e] at hc
    have step : build (.inCell cells attrs txt) acc (Token.char c :: (cs.map .char ++ rest))
        = build (.inCell cells attrs (txt ++ [c])) acc (cs.map .char ++ rest) := by
      simp only [build, buildStep, hnul, if_false]
    rw [List.map_cons, List.cons_append, step, ih (fun d hd => h d (List.mem_cons_of_mem c hd))]
    simp

theorem markup_toList (row : ItemRow) :
    (rowMarkup row).toList
      = "\n                        <tr>\n                            <td>".toList
        ++ (row.item_code.toList
        ++ ("</td>\n                            <td>".toList
        ++ (row.qty.toList
        ++ ("</td>\n                            <td>".toList
        ++ (row.weight.toList
        ++ ("</td>\n                            <td>".toList
        ++ (row.description.toList
        ++ "</td>\n                        </tr>\n                    ".toList))))))) := by
  simp only [rowMarkup, String.toList, String.data_append, List.append_assoc]

set_option maxRecDepth 100000 in
theorem lex_open (rest : List Char) :
    lex .data [] ("\n                        <tr>\n                            <td>".toList ++ rest)
      = (lex .data [] rest).map (openTokens ++ ·) := by
  rw [← lex_acc]
  rfl

set_option maxRecDepth 100000 in
theorem lex_break (rest : List Char) :
    lex .data [] ("</td>\n                            <td>".toList ++ rest)
      = (lex .data [] rest).map (breakTokens ++ ·) := by
  rw [← lex_acc]
  rfl

set_option maxRecDepth 100000 in
theorem lex_close :
    lex .data [] "</td>\n                        </tr>\n                    ".toList
      = some closeTokens := by
  decide

set_option maxRecDepth 100000 in
theorem build_open (rest : List Token) :
    build .inTableBody [] (openTokens ++ rest) = build (.inCell [] [] []) [] rest :=
  rfl

set_option maxRecDepth 100000 in
theorem build_break (cells : List Cell) (txt : List Char) (rest : List Token) :
    build (.inCell cells [] txt) [] (breakTokens ++ rest)
      = build (.inCell (cells ++ [⟨[], String.mk txt⟩]) [] []) [] rest :=
  rfl

set_option maxRecDepth 100000 in
theorem build_close (cells : List Cell) (txt : List Char) :
    build (.inCell cells [] txt) [] closeTokens
      = some [⟨cells ++ [⟨[], String.mk txt⟩]⟩] :=
  rfl

theorem parse_rowMarkup (row : ItemRow) (h : PlainRow row) :
    parseFragment (rowMarkup row) = some [rowOf row] := by
  obtain ⟨h₁, h₂, h₃, h₄⟩ := h
  have hcr : ∀ (s : String), PlainText s → ∀ c ∈ s.toList, c ≠ '\r' := by
    intro s hs c hc e
    have := hs c hc
    simp [isTextChar, e] at this
  have hnorm : normalizeNewlines false (rowMarkup row).toList = (rowMarkup row).toList := by
    apply normalize_of_no_cr
    rw [markup_toList]
    intro c hc
    simp only [List.mem_append] at hc
    rcases hc with hc | hc | hc | hc | hc | hc | hc | hc | hc
    · revert c; decide
    · exact hcr _ h₁ c hc
    · revert c; decide
    · exact hcr _ h₂ c hc
    · revert c; decide
    · exact hcr _ h₃ c hc
    · revert c; decide
    · exact hcr _ h₄ c hc
    · revert c; decide
  have hlex : lex .data [] (rowMarkup row).toList
      = some (openTokens ++ (row.item_code.toList.map .char ++ (breakTokens
        ++ (row.qty.toList.map .char ++ (breakTokens
        ++ (row.weight.toList.map .char ++ (breakTokens
        ++ (row.description.toList.map .char ++ closeTokens)))))))) := by
    rw [markup_toList, lex_open, lex_text _ _ h₁, lex_break, lex_text _ _ h₂, lex_break,
      lex_text _ _ h₃, lex_break, lex_text _ _ h₄, lex_close]
    rfl
  rw [parseFragment, hnorm, hlex, Option.some_bind, build_open, build_text _ h₁, build_break,
    build_text _ h₂, build_break, build_text _ h₃, build_break, build_text _ h₄, build_close]
  rfl

theorem parse_placeholder : parseFragment placeholderMarkup = some [placeholderRow] := by
  decide

theorem parse_empty : parseFragment "" = some [] := by
  decide

theorem appendRows_plain (rows : List ItemRow) (body : List TRow)
    (h : ∀ r ∈ rows, PlainRow r) : appendRows body rows = some (body ++ rows.map rowOf) := by
  induction rows generalizing body with
  | nil => simp [appendRows]
  | cons r rs ih =>
    have hr := parse_rowMarkup r (h r (List.mem_cons_self r rs))
    have ih' := ih (body ++ [rowOf r]) (fun x hx => h x (List.mem_cons_of_mem r hx))
    simp only [appendRows, hr, ih', List.map_cons, List.append_assoc, List.singleton_append]

/-- On item records whose field values hold no `<`, `&`, NUL or CR the listener
does what it is written for: a click adds exactly one request, to the data-url
of the trigger, and once the response is processed the table body holds one
row per record, in array order, with the four field values as cell texts,
whatever it held before; for the empty array it is empty. -/
theorem click_then_items (p : Page) (url : String) (rows : List ItemRow)
    (h : ∀ r ∈ rows, PlainRow r) :
    click p ⟨some url⟩ = some ⟨[placeholderRow], p.requests ++ [url], true⟩
      ∧ respond ⟨[placeholderRow], p.requests ++ [url], true⟩ (.items rows)
        = some ⟨rows.map rowOf, p.requests ++ [url], true⟩
      ∧ (∀ q : Page, respond q (.items rows) = some { q with tbody := rows.map rowOf })
      ∧ (∀ q : Page, respond q (.items []) = some { q with tbody := [] }) := by
  have hr : ∀ (l : List ItemRow), (∀ r ∈ l, PlainRow r) →
      ∀ q : Page, respond q (.items l) = some { q with tbody := l.map rowOf } := by
    intro l hl q
    simp [respond, parse_empty, appendRows_plain l [] hl]
  refine ⟨?_, hr rows h _, hr rows h, hr [] (by simp)⟩
  simp [click, parse_placeholder, fetchUrl]

set_option maxRecDepth 100000 in
/-- C7, the code at the failing input: the response array has one item record,
whose item_code holds markup.  After the response is processed the table body
has two rows, the first with one cell and the second with four, and not the
one row with the four field values of the record. -/
theorem one_item_two_rows :
    respond ⟨[placeholderRow], ["/inbound/7/items"], true⟩
        (.items [⟨"x</td></tr><tr><td>y", "1", "2", "d"⟩])
      = some ⟨[⟨[⟨[], "x"⟩]⟩, ⟨[⟨[], "y"⟩, ⟨[], "1"⟩, ⟨[], "2"⟩, ⟨[], "d"⟩]⟩],
          ["/inbound/7/items"], true⟩ := by
  decide

set_option maxRecDepth 100000 in
/-- C8, the code at the failing input: an item_code that holds markup is parsed
as markup.  The row added to the table body has five cells, and none of them
has the item_code as its text. -/
theorem markup_changes_cells :
    appendRows [] [⟨"A</td><td>B", "1", "2", "d"⟩]
        = some [⟨[⟨[], "A"⟩, ⟨[], "B"⟩, ⟨[], "1"⟩, ⟨[], "2"⟩, ⟨[], "d"⟩]⟩]
      ∧ (appendRows [] [⟨"A</td><td>B", "1", "2", "d"⟩]).map
          (fun b => b.map (fun r => r.cells.length)) = some [5] := by
  decide

set_option maxRecDepth 100000 in
theorem text_with_lone_markup_characters :
    appendRows [] [⟨"Tom & Jerry", "1", "2.5", "a < b > c"⟩]
      = some [rowOf ⟨"Tom & Jerry", "1", "2.5", "a < b > c"⟩] := by
  decide

/-- C9: a click replaces the table body by the single placeholder row whatever
it held, and shows the modal; when the request fails or the body is not JSON
the page stays exactly so: the body is the placeholder row and the modal is
shown. -/
theorem click_placeholder (p : Page) (btn : Trigger) :
    click p btn = some ⟨[placeholderRow], p.requests ++ [fetchUrl btn], true⟩
      ∧ respond ⟨[placeholderRow], p.requests ++ [fetchUrl btn], true⟩ .failed
        = some ⟨[placeholderRow], p.requests ++ [fetchUrl btn], true⟩
      ∧ respond ⟨[placeholderRow], p.requests ++ [fetchUrl btn], true⟩ .undecodable
        = some ⟨[placeholderRow], p.requests ++ [fetchUrl btn], true⟩ := by
  refine ⟨?_, rfl, rfl⟩
  simp [click, parse_placeholder]

end InboundItemsModal
